import Mathlib

/-!
Verification of the event-harvesting pipeline (schools.py / churches.py /
contact scraping) against its specification.

The Python code is shallowly embedded: dictionaries become structures with
optional string fields, `datetime.strptime` / `strftime` / `fromisoformat`
are modelled over character lists for exactly the directives the source
uses, and the clock (`date.today()` / `datetime.now()`) is threaded as an
explicit `today` parameter.  `python-dateutil` is modelled as absent (the
source guards its import with `except ImportError`, so this is one of the
code's own executions).
-/

/-- Model of `datetime.date`: a calendar date. -/
structure PyDate where
  year : Nat
  month : Nat
  day : Nat
deriving Repr, DecidableEq, BEq, Inhabited

/-- Model of `datetime.datetime` (naive or with its timezone erased: the code only
ever reads wall-clock fields after `tz.localize`). -/
structure PyDateTime where
  year : Nat
  month : Nat
  day : Nat
  hour : Nat
  minute : Nat
  second : Nat
deriving Repr, DecidableEq, BEq, Inhabited

def isLeapYear (y : Nat) : Bool :=
  (y % 4 == 0 && y % 100 != 0) || (y % 400 == 0)

def daysInMonth (y m : Nat) : Nat :=
  if m = 2 then (if isLeapYear y then 29 else 28)
  else if m = 4 ∨ m = 6 ∨ m = 9 ∨ m = 11 then 30
  else 31

def daysBeforeMonth (y m : Nat) : Nat :=
  (List.range (m - 1)).foldl (fun acc i => acc + daysInMonth y (i + 1)) 0

/-- Proleptic-Gregorian day number; day 1 is 0001-01-01 (a Monday). -/
def rataDie (d : PyDate) : Nat :=
  let y := d.year - 1
  365 * y + y / 4 - y / 100 + y / 400 + daysBeforeMonth d.year d.month + d.day

/-- Python `date` comparison (lexicographic on year, month, day). -/
def dateLe (a b : PyDate) : Bool :=
  if a.year ≠ b.year then a.year < b.year
  else if a.month ≠ b.month then a.month < b.month
  else a.day ≤ b.day

def dateLt (a b : PyDate) : Bool :=
  if a.year ≠ b.year then a.year < b.year
  else if a.month ≠ b.month then a.month < b.month
  else a.day < b.day

def nextDay (d : PyDate) : PyDate :=
  if d.day < daysInMonth d.year d.month then { d with day := d.day + 1 }
  else if d.month < 12 then { year := d.year, month := d.month + 1, day := 1 }
  else { year := d.year + 1, month := 1, day := 1 }

/-- Model of `d + timedelta(days := n)`. -/
def addDays (d : PyDate) : Nat → PyDate
  | 0 => d
  | n + 1 => addDays (nextDay d) n

def prevDay (d : PyDate) : PyDate :=
  if d.day > 1 then { d with day := d.day - 1 }
  else if d.month > 1 then
    { year := d.year, month := d.month - 1, day := daysInMonth d.year (d.month - 1) }
  else { year := d.year - 1, month := 12, day := 31 }

def monthAbbrevNames : List String :=
  ["Jan", "Feb", "Mar", "Apr", "May", "Jun", "Jul", "Aug", "Sep", "Oct", "Nov", "Dec"]

def monthFullNames : List String :=
  ["January", "February", "March", "April", "May", "June", "July", "August",
   "September", "October", "November", "December"]

def weekdayAbbrevNames : List String :=
  ["Sun", "Mon", "Tue", "Wed", "Thu", "Fri", "Sat"]

def weekdayFullNames : List String :=
  ["Sunday", "Monday", "Tuesday", "Wednesday", "Thursday", "Friday", "Saturday"]

def pad2 (n : Nat) : String := if n < 10 then "0" ++ toString n else toString n

def pad4 (n : Nat) : String :=
  if n < 10 then "000" ++ toString n
  else if n < 100 then "00" ++ toString n
  else if n < 1000 then "0" ++ toString n
  else toString n

/-- Model of `strftime`, for the directives the source's format strings use. -/
def strftimeChars : List Char → PyDateTime → String
  | [], _ => ""
  | '%' :: c :: rest, t =>
    (match c with
     | 'a' => (weekdayAbbrevNames.getD (rataDie ⟨t.year, t.month, t.day⟩ % 7) "")
     | 'A' => (weekdayFullNames.getD (rataDie ⟨t.year, t.month, t.day⟩ % 7) "")
     | 'b' => (monthAbbrevNames.getD (t.month - 1) "")
     | 'B' => (monthFullNames.getD (t.month - 1) "")
     | 'd' => pad2 t.day
     | 'm' => pad2 t.month
     | 'Y' => pad4 t.year
     | 'H' => pad2 t.hour
     | 'I' => pad2 ((t.hour + 11) % 12 + 1)
     | 'M' => pad2 t.minute
     | 'S' => pad2 t.second
     | 'p' => if t.hour < 12 then "AM" else "PM"
     | c => String.mk ['%', c]) ++ strftimeChars rest t
  | c :: rest, t => String.mk [c] ++ strftimeChars rest t

def strftime (fmt : String) (t : PyDateTime) : String := strftimeChars fmt.data t

def dateToDT (d : PyDate) : PyDateTime := ⟨d.year, d.month, d.day, 0, 0, 0⟩

def dtDate (t : PyDateTime) : PyDate := ⟨t.year, t.month, t.day⟩

/-- Model of `date.strftime` (time fields are zero). -/
def strftimeDate (fmt : String) (d : PyDate) : String := strftime fmt (dateToDT d)

-- ## Python string helpers (ASCII strings, as in the scraped data)

def pyLower (s : String) : String := String.mk (s.data.map Char.toLower)

/-- Model of `str.strip()`. -/
def pyStrip (s : String) : String :=
  String.mk (((s.data.dropWhile Char.isWhitespace).reverse.dropWhile Char.isWhitespace).reverse)

def isWordChar (c : Char) : Bool := c.isAlphanum || c == '_'

def dval (c : Char) : Nat := c.toNat - 48

-- ## `datetime.strptime`, following CPython's `_strptime.TimeRE` regexes.
--
-- Each directive compiles to an ordered alternation; the whole pattern is
-- matched case-insensitively and must consume the entire input.  Candidate
-- lists below are in the regex's alternation order and the matcher
-- backtracks through them.

/-- Fields collected while matching, with `strptime`'s defaults applied at
the end (year 1900, month 1, day 1, time 00:00:00). -/
structure TMState where
  y : Option Nat := none
  mon : Option Nat := none
  d : Option Nat := none
  h : Option Nat := none
  i12 : Option Nat := none
  pm : Option Bool := none
  minute : Option Nat := none
  sec : Option Nat := none
deriving Repr, DecidableEq

/-- Model of `(?P<d>3[01]|[12]\d|0[1-9]|[1-9])` -/
def cand_d : List Char → List (Nat × List Char)
  | a :: b :: rest =>
    (if a.isDigit && b.isDigit &&
        ((dval a == 3 && dval b ≤ 1) || dval a == 1 || dval a == 2 ||
         (dval a == 0 && 1 ≤ dval b))
     then [(dval a * 10 + dval b, rest)] else [])
    ++ (if a.isDigit && 1 ≤ dval a then [(dval a, b :: rest)] else [])
  | [a] => if a.isDigit && 1 ≤ dval a then [(dval a, ([] : List Char))] else []
  | [] => []

/-- Model of `(?P<m>1[0-2]|0[1-9]|[1-9])`, also used for `%I`. -/
def cand_m : List Char → List (Nat × List Char)
  | a :: b :: rest =>
    (if a.isDigit && b.isDigit &&
        ((dval a == 1 && dval b ≤ 2) || (dval a == 0 && 1 ≤ dval b))
     then [(dval a * 10 + dval b, rest)] else [])
    ++ (if a.isDigit && 1 ≤ dval a then [(dval a, b :: rest)] else [])
  | [a] => if a.isDigit && 1 ≤ dval a then [(dval a, ([] : List Char))] else []
  | [] => []

/-- Model of `(?P<H>2[0-3]|[0-1]\d|\d)` -/
def cand_H : List Char → List (Nat × List Char)
  | a :: b :: rest =>
    (if a.isDigit && b.isDigit && ((dval a == 2 && dval b ≤ 3) || dval a ≤ 1)
     then [(dval a * 10 + dval b, rest)] else [])
    ++ (if a.isDigit then [(dval a, b :: rest)] else [])
  | [a] => if a.isDigit then [(dval a, ([] : List Char))] else []
  | [] => []

/-- Model of `(?P<M>[0-5]\d|\d)` -/
def cand_M : List Char → List (Nat × List Char)
  | a :: b :: rest =>
    (if a.isDigit && b.isDigit && dval a ≤ 5
     then [(dval a * 10 + dval b, rest)] else [])
    ++ (if a.isDigit then [(dval a, b :: rest)] else [])
  | [a] => if a.isDigit then [(dval a, ([] : List Char))] else []
  | [] => []

/-- Model of `(?P<S>6[0-1]|[0-5]\d|\d)` -/
def cand_S : List Char → List (Nat × List Char)
  | a :: b :: rest =>
    (if a.isDigit && b.isDigit && ((dval a == 6 && dval b ≤ 1) || dval a ≤ 5)
     then [(dval a * 10 + dval b, rest)] else [])
    ++ (if a.isDigit then [(dval a, b :: rest)] else [])
  | [a] => if a.isDigit then [(dval a, ([] : List Char))] else []
  | [] => []

/-- Model of `(?P<Y>\d\d\d\d)` -/
def cand_Y : List Char → List (Nat × List Char)
  | a :: b :: c :: d :: rest =>
    if a.isDigit && b.isDigit && c.isDigit && d.isDigit
    then [(dval a * 1000 + dval b * 100 + dval c * 10 + dval d, rest)] else []
  | _ => []

/-- Drop `name` from the front of `input`, case-insensitively. -/
def dropPrefixCI : List Char → List Char → Option (List Char)
  | [], rest => some rest
  | _ :: _, [] => none
  | n :: ns, c :: cs => if n.toLower == c.toLower then dropPrefixCI ns cs else none

/-- Name alternations are sorted longest-first (CPython `__seqToRE`). -/
def nameCands (names : List (String × Nat)) (input : List Char) : List (Nat × List Char) :=
  names.filterMap (fun nv => (dropPrefixCI nv.1.data input).map (fun rest => (nv.2, rest)))

def monthFullTable : List (String × Nat) :=
  [("September", 9), ("February", 2), ("November", 11), ("December", 12),
   ("January", 1), ("October", 10), ("August", 8), ("March", 3), ("April", 4),
   ("June", 6), ("July", 7), ("May", 5)]

def monthAbbrevTable : List (String × Nat) :=
  [("Jan", 1), ("Feb", 2), ("Mar", 3), ("Apr", 4), ("May", 5), ("Jun", 6),
   ("Jul", 7), ("Aug", 8), ("Sep", 9), ("Oct", 10), ("Nov", 11), ("Dec", 12)]

def weekdayFullTable : List (String × Nat) :=
  [("Wednesday", 0), ("Thursday", 0), ("Saturday", 0), ("Tuesday", 0),
   ("Monday", 0), ("Friday", 0), ("Sunday", 0)]

def weekdayAbbrevTable : List (String × Nat) :=
  [("Mon", 0), ("Tue", 0), ("Wed", 0), ("Thu", 0), ("Fri", 0), ("Sat", 0), ("Sun", 0)]

def ampmTable : List (String × Nat) := [("AM", 0), ("PM", 1)]

def firstSomeCand {α β : Type} (f : α → Option β) : List α → Option β
  | [] => none
  | c :: cs => match f c with
    | some r => some r
    | none => firstSomeCand f cs

/-- Ways to consume the `\s+` a whitespace run in the format compiles to,
greedy (longest consumption) first. -/
def wsCands (input : List Char) : List (List Char) :=
  let k := (input.takeWhile Char.isWhitespace).length
  (List.range k).map (fun j => input.drop (k - j))

def setDirective (c : Char) (v : Nat) (tm : TMState) : TMState :=
  match c with
  | 'Y' => { tm with y := some v }
  | 'm' => { tm with mon := some v }
  | 'd' => { tm with d := some v }
  | 'H' => { tm with h := some v }
  | 'I' => { tm with i12 := some v }
  | 'M' => { tm with minute := some v }
  | 'S' => { tm with sec := some v }
  | 'p' => { tm with pm := some (v == 1) }
  | _ => tm

def directiveCands (c : Char) (input : List Char) : List (Nat × List Char) :=
  match c with
  | 'Y' => cand_Y input
  | 'm' => cand_m input
  | 'd' => cand_d input
  | 'H' => cand_H input
  | 'I' => cand_m input
  | 'M' => cand_M input
  | 'S' => cand_S input
  | 'B' => nameCands monthFullTable input
  | 'b' => nameCands monthAbbrevTable input
  | 'A' => nameCands weekdayFullTable input
  | 'a' => nameCands weekdayAbbrevTable input
  | 'p' => nameCands ampmTable input
  | _ => []

def setForDirective (c : Char) (v : Nat) (tm : TMState) : TMState :=
  match c with
  | 'B' => { tm with mon := some v }
  | 'b' => { tm with mon := some v }
  | 'A' => tm
  | 'a' => tm
  | _ => setDirective c v tm

/-- The matcher: format against input, full consumption required, literal
characters matched case-insensitively (the compiled regex is `IGNORECASE`).
`fuel` bounds the recursion by the format length; every step strictly
shortens the format. -/
def matchFmt : Nat → List Char → List Char → TMState → Option TMState
  | 0, _, _, _ => none
  | _ + 1, [], input, tm => if input.isEmpty then some tm else none
  | fuel + 1, '%' :: fc :: fmtRest, input, tm =>
    firstSomeCand
      (fun vr => matchFmt fuel fmtRest vr.2 (setForDirective fc vr.1 tm))
      (directiveCands fc input)
  | fuel + 1, c :: fmtRest, input, tm =>
    if c.isWhitespace then
      let fmt2 := fmtRest.dropWhile Char.isWhitespace
      firstSomeCand (fun rest => matchFmt fuel fmt2 rest tm) (wsCands input)
    else
      match input with
      | [] => none
      | i :: irest =>
        if i.toLower == c.toLower then matchFmt fuel fmtRest irest tm else none

/-- Assemble the `datetime`; `day is out of range for month` is a
`ValueError`, i.e. `none`. -/
def tmToDateTime (tm : TMState) : Option PyDateTime :=
  let year := tm.y.getD 1900
  let month := tm.mon.getD 1
  let day := tm.d.getD 1
  let hour :=
    match tm.h with
    | some h => h
    | none =>
      match tm.i12, tm.pm with
      | some i, some b =>
        if b then (if i == 12 then 12 else i + 12) else (if i == 12 then 0 else i)
      | some i, none => i
      | none, _ => 0
  if day ≤ daysInMonth year month then
    some ⟨year, month, day, hour, tm.minute.getD 0, tm.sec.getD 0⟩
  else none

def pyStrptime (s fmt : String) : Option PyDateTime :=
  match matchFmt (fmt.data.length + 1) fmt.data s.data {} with
  | some tm => tmToDateTime tm
  | none => none

-- ## `datetime.fromisoformat`
--
-- Modelled for the shapes the pipeline produces: `YYYY-MM-DD`, optionally
-- a separator plus `HH:MM[:SS]`, optionally a `±HH:MM` offset (the offset
-- is validated, then discarded: the code only reads wall-clock fields).

def parseIsoOffset : List Char → Bool
  | [] => true
  | s :: h1 :: h2 :: ':' :: m1 :: m2 :: [] =>
    (s == '+' || s == '-') && h1.isDigit && h2.isDigit && m1.isDigit && m2.isDigit &&
    (dval h1 * 10 + dval h2) < 24 && (dval m1 * 10 + dval m2) < 60
  | _ => false

def parseIsoTime : List Char → Option (Nat × Nat × Nat)
  | h1 :: h2 :: ':' :: m1 :: m2 :: rest =>
    if h1.isDigit && h2.isDigit && m1.isDigit && m2.isDigit then
      let hh := dval h1 * 10 + dval h2
      let mm := dval m1 * 10 + dval m2
      if hh < 24 && mm < 60 then
        match rest with
        | ':' :: s1 :: s2 :: rest2 =>
          if s1.isDigit && s2.isDigit && (dval s1 * 10 + dval s2) < 60 &&
             parseIsoOffset rest2
          then some (hh, mm, dval s1 * 10 + dval s2) else none
        | other => if parseIsoOffset other then some (hh, mm, 0) else none
      else none
    else none
  | _ => none

def pyFromIsoChars : List Char → Option PyDateTime
  | y1 :: y2 :: y3 :: y4 :: '-' :: m1 :: m2 :: '-' :: d1 :: d2 :: rest =>
    if y1.isDigit && y2.isDigit && y3.isDigit && y4.isDigit &&
       m1.isDigit && m2.isDigit && d1.isDigit && d2.isDigit then
      let y := dval y1 * 1000 + dval y2 * 100 + dval y3 * 10 + dval y4
      let m := dval m1 * 10 + dval m2
      let d := dval d1 * 10 + dval d2
      if 1 ≤ y && 1 ≤ m && m ≤ 12 && 1 ≤ d && d ≤ daysInMonth y m then
        match rest with
        | [] => some ⟨y, m, d, 0, 0, 0⟩
        | _sep :: t => (parseIsoTime t).map (fun hms => ⟨y, m, d, hms.1, hms.2.1, hms.2.2⟩)
      else none
    else none
  | _ => none

def pyFromIso (s : String) : Option PyDateTime := pyFromIsoChars s.data

/-- Model of `date.isoformat()`. -/
def isoDate (d : PyDate) : String := pad4 d.year ++ "-" ++ pad2 d.month ++ "-" ++ pad2 d.day

-- ## `pytz.timezone('US/Eastern')` conversion from UTC
--
-- US daylight-saving rule in force since 2007 (the tz database data pytz
-- applies to the modern dates this pipeline handles): DST runs from the
-- second Sunday in March, 07:00 UTC, to the first Sunday in November,
-- 06:00 UTC.

def secondSundayMarch (y : Nat) : Nat := 1 + (7 - rataDie ⟨y, 3, 1⟩ % 7) % 7 + 7

def firstSundayNov (y : Nat) : Nat := 1 + (7 - rataDie ⟨y, 11, 1⟩ % 7) % 7

def inDST (t : PyDateTime) : Bool :=
  let startRd := rataDie ⟨t.year, 3, secondSundayMarch t.year⟩
  let endRd := rataDie ⟨t.year, 11, firstSundayNov t.year⟩
  let tr := rataDie ⟨t.year, t.month, t.day⟩
  (startRd < tr || (tr == startRd && 7 ≤ t.hour)) &&
  (tr < endRd || (tr == endRd && t.hour < 6))

/-- Model of `dt_utc.astimezone(pytz.timezone('US/Eastern'))`: subtract 4 h (EDT) or
5 h (EST) from the UTC wall clock. -/
def toEastern (t : PyDateTime) : PyDateTime :=
  let off := if inDST t then 4 else 5
  if off ≤ t.hour then { t with hour := t.hour - off }
  else
    let p := prevDay ⟨t.year, t.month, t.day⟩
    ⟨p.year, p.month, p.day, t.hour + 24 - off, t.minute, t.second⟩

-- ## The event record
--
-- The scrapers pass events around as string dictionaries; `none` stands
-- for both an absent key and an explicit `None` value (the accessors used
-- by the embedded functions are `get(key, '')` / truthiness tests, which
-- do not distinguish the two).

structure Ev where
  title : String := ""
  date : Option String := none
  whenText : Option String := none
  time : Option String := none
  description : Option String := none
  location : Option String := none
  address : Option String := none
  url : Option String := none
  website : Option String := none
  source : Option String := none
deriving Repr, DecidableEq, BEq, Inhabited

-- ## schools.py

def schoolsDateFormats : List String :=
  ["%Y-%m-%d", "%m/%d/%Y", "%d/%m/%Y", "%m-%d-%Y", "%B %d, %Y", "%b %d, %Y",
   "%A, %B %d, %Y", "%a, %b %d, %Y",
   "%B %d", "%b %d", "%m/%d", "%m-%d",
   "%Y-%m-%d %H:%M:%S", "%m/%d/%Y %H:%M %p", "%B %d, %Y at %I:%M %p",
   "%a, %b %d at %I:%M %p"]

/-- The per-format loop: first matching format wins, the `strptime` default
year 1900 is replaced by the current year. -/
def tryDateFormats (today : PyDate) (s : String) : List String → Option PyDate
  | [] => none
  | fmt :: rest =>
    match pyStrptime s fmt with
    | some dt =>
      let dt := if dt.year == 1900 then { dt with year := today.year } else dt
      some (dtDate dt)
    | none => tryDateFormats today s rest

/-- Model of `re.search` for
`(?:Jan|Feb|Mar|Apr|May|Jun|Jul|Aug|Sep|Oct|Nov|Dec)[a-z]*\s+\d{1,2}(?:,?\s*\d{4})?`
(IGNORECASE): leftmost match, each quantifier's consumption forced by the
character-class boundaries.  Returns the matched text. -/
def monthPatternAt (cs : List Char) : Option (List Char) :=
  match firstSomeCand (fun nv => (dropPrefixCI nv.1.data cs).map (fun r => (nv.1, r)))
          monthAbbrevTable with
  | none => none
  | some (nm, r1) =>
    let letters := r1.takeWhile (fun c => c.isAlpha)
    let r2 := r1.drop letters.length
    let ws := r2.takeWhile Char.isWhitespace
    if ws.isEmpty then none else
    let r3 := r2.drop ws.length
    let digits := (r3.takeWhile Char.isDigit).take 2
    if digits.isEmpty then none else
    let r4 := r3.drop digits.length
    let base := nm.data ++ letters ++ ws ++ digits
    -- optional `,?\s*\d{4}`
    let withComma := match r4 with
      | ',' :: r5 => some (([','] : List Char), r5)
      | r5 => some (([] : List Char), r5)
    match withComma with
    | some (comma, r5) =>
      let ws2 := r5.takeWhile Char.isWhitespace
      let r6 := r5.drop ws2.length
      if (r6.take 4).length == 4 && (r6.take 4).all Char.isDigit
      then some (base ++ comma ++ ws2 ++ r6.take 4)
      else some base
    | none => some base

def searchMonthPattern : List Char → Option (List Char)
  | [] => none
  | c :: rest =>
    match monthPatternAt (c :: rest) with
    | some m => some m
    | none => searchMonthPattern rest

def containsFourDigits : List Char → Bool
  | a :: b :: c :: d :: rest =>
    (a.isDigit && b.isDigit && c.isDigit && d.isDigit) ||
    containsFourDigits (b :: c :: d :: rest)
  | _ => false

/-- Model of `re.search(r'\d{1,2}/\d{1,2}(?:/\d{4})?', ...)`: leftmost match with
the regex's backtracking preference (2 digits before 1, year present
before absent). -/
def slashPatternAt (cs : List Char) : Option (List Char) :=
  let firstCands : List (List Char × List Char) :=
    (match cs with
     | a :: b :: r => (if a.isDigit && b.isDigit then [([a, b], r)] else [])
                      ++ (if a.isDigit then [([a], b :: r)] else [])
     | [a] => if a.isDigit then [([a], ([] : List Char))] else []
     | [] => [])
  firstSomeCand
    (fun c1 =>
      match c1.2 with
      | '/' :: r2 =>
        let secondCands : List (List Char × List Char) :=
          (match r2 with
           | a :: b :: r => (if a.isDigit && b.isDigit then [([a, b], r)] else [])
                            ++ (if a.isDigit then [([a], b :: r)] else [])
           | [a] => if a.isDigit then [([a], ([] : List Char))] else []
           | [] => [])
        firstSomeCand
          (fun c2 =>
            match c2.2 with
            | '/' :: y1 :: y2 :: y3 :: y4 :: _ =>
              if y1.isDigit && y2.isDigit && y3.isDigit && y4.isDigit
              then some (c1.1 ++ ['/'] ++ c2.1 ++ ['/', y1, y2, y3, y4])
              else some (c1.1 ++ ['/'] ++ c2.1)
            | _ => some (c1.1 ++ ['/'] ++ c2.1))
          secondCands
      | _ => none)
    firstCands

def searchSlashPattern : List Char → Option (List Char)
  | [] => none
  | c :: rest =>
    match slashPatternAt (c :: rest) with
    | some m => some m
    | none => searchSlashPattern rest

def countChar (c : Char) (cs : List Char) : Nat := (cs.filter (· == c)).length

/-- Model of `SchoolsTool._parse_event_date` (schools.py).  `python-dateutil` is
absent (`except ImportError: pass`), so flow goes from the format loop
straight to the regex fallbacks. -/
def _parse_event_date (today : PyDate) (date_str : String) : Option PyDate :=
  if date_str = "" || date_str = "Date not specified" then none
  else
    let cleaned := pyStrip date_str
    match tryDateFormats today cleaned schoolsDateFormats with
    | some d => some d
    | none =>
      let fromMonth : Option PyDate :=
        match searchMonthPattern cleaned.data with
        | none => none
        | some m =>
          let datePart :=
            if containsFourDigits m then String.mk m
            else String.mk m ++ ", " ++ toString today.year
          match pyStrptime datePart "%B %d, %Y" with
          | some dt => some (dtDate dt)
          | none =>
            match pyStrptime datePart "%b %d, %Y" with
            | some dt => some (dtDate dt)
            | none => none
      match fromMonth with
      | some d => some d
      | none =>
        match searchSlashPattern cleaned.data with
        | none => none
        | some m =>
          let datePart :=
            if countChar '/' m == 1 then String.mk m ++ "/" ++ toString today.year
            else String.mk m
          match pyStrptime datePart "%m/%d/%Y" with
          | some dt => some (dtDate dt)
          | none => none

/-- Model of `SchoolsTool._deduplicate_events`: keep the first event for each
`normalised-title|date` key. -/
def dedupKey (e : Ev) : String :=
  pyLower (pyStrip e.title) ++ "|" ++ pyLower (pyStrip (e.date.getD ""))

def dedupGo (seen : List String) : List Ev → List Ev
  | [] => []
  | e :: rest =>
    if seen.contains (dedupKey e) then dedupGo seen rest
    else e :: dedupGo (dedupKey e :: seen) rest

def _deduplicate_events (events : List Ev) : List Ev := dedupGo [] events

/-- Model of `event.get('date', '') or event.get('when', '')`. -/
def dateOrWhen (e : Ev) : String :=
  if e.date.getD "" ≠ "" then e.date.getD "" else e.whenText.getD ""

/-- Model of `SchoolsTool._filter_events_by_date_range`: `DEFAULT_DAYS_AHEAD = 14`,
`INCLUDE_TODAY = True`; an event whose date cannot be parsed is included. -/
def _filter_events_by_date_range (today : PyDate) (events : List Ev) : List Ev :=
  let endDate := addDays today 14
  events.filter (fun e =>
    match _parse_event_date today (dateOrWhen e) with
    | some d => dateLe today d && dateLe d endDate
    | none => true)

-- ## `SchoolsTool._consolidate_recurring_events`

/-- Model of `re.sub(r'[^\w\s]', '', title.lower()).strip()`. -/
def normalizeGroupTitle (t : String) : String :=
  pyStrip (String.mk ((pyLower t).data.filter (fun c => isWordChar c || c.isWhitespace)))

/-- Model of `f"{normalized_title}|{event.get('address', '')}"`. -/
def groupKeyOf (e : Ev) : String := normalizeGroupTitle e.title ++ "|" ++ e.address.getD ""

/-- Group keys in order of first appearance (Python dicts iterate in
insertion order). -/
def orderedKeys (events : List Ev) : List String :=
  events.foldl (fun acc e => if acc.contains (groupKeyOf e) then acc else acc ++ [groupKeyOf e]) []

/-- The `(parsed_date, event)` pairs of a group, in group order. -/
def datedEvents (today : PyDate) (g : List Ev) : List (PyDate × Ev) :=
  g.filterMap (fun e => (_parse_event_date today (e.whenText.getD "")).map (fun d => (d, e)))

/-- Model of `dated_events.sort(key=lambda x: x[0])`: Python's sort is stable, and a
stable sort by key is a unique function, here realised as insertion sort. -/
def insertDated (p : PyDate × Ev) : List (PyDate × Ev) → List (PyDate × Ev)
  | [] => [p]
  | q :: rest => if dateLt q.1 p.1 then q :: insertDated p rest else p :: q :: rest

def sortDated (l : List (PyDate × Ev)) : List (PyDate × Ev) := l.foldr insertDated []

/-- The range-building loop: a new element joins the current run when it is
within 2 days of the run's last element, otherwise a new run starts. -/
def splitRunsGo (cur : List (PyDate × Ev)) (last : PyDate) :
    List (PyDate × Ev) → List (List (PyDate × Ev))
  | [] => [cur]
  | p :: rest =>
    if (rataDie p.1 : Int) - (rataDie last : Int) ≤ 2 then
      splitRunsGo (cur ++ [p]) p.1 rest
    else
      cur :: splitRunsGo [p] p.1 rest

def splitRuns : List (PyDate × Ev) → List (List (PyDate × Ev))
  | [] => []
  | p :: rest => splitRunsGo [p] p.1 rest

/-- The date-range label: `%a, %b %d, %Y` for a collapsed range,
`"{start:%b %d}-{end:%d, %Y}"` within one month, otherwise
`"{start:%b %d} - {end:%b %d, %Y}"`. -/
def rangeLabel (s e : PyDate) : String :=
  if s = e then strftimeDate "%a, %b %d, %Y" s
  else if s.month = e.month then strftimeDate "%b %d" s ++ "-" ++ strftimeDate "%d, %Y" e
  else strftimeDate "%b %d" s ++ " - " ++ strftimeDate "%b %d, %Y" e

/-- Emit the consolidated event(s) for one run: singleton runs pass the
original event through; longer runs copy the run's first event and rewrite
`when` and `description` only. -/
def emitRun : List (PyDate × Ev) → List Ev
  | [] => []
  | [(_, e)] => [e]
  | (d0, e0) :: p1 :: rest =>
    let endDate := ((p1 :: rest).getLastD (d0, e0)).1
    let n := (p1 :: rest).length + 1
    [{ e0 with
        whenText := some (rangeLabel d0 endDate),
        description := some (pyStrip ((e0.description.getD "") ++
          " (Recurring event: " ++ toString n ++ " dates)")) }]

/-- One `title_groups` entry: singleton groups pass through; otherwise the
loop appends the unparseable-date events first (or, when no date parses,
appends them and then extends with the whole group again), then the runs. -/
def processGroup (today : PyDate) (g : List Ev) : List Ev :=
  if g.length = 1 then g
  else
    let unparsed := g.filter (fun e => (_parse_event_date today (e.whenText.getD "")).isNone)
    let dated := datedEvents today g
    if dated.isEmpty then unparsed ++ g
    else unparsed ++ ((splitRuns (sortDated dated)).map emitRun).flatten

def _consolidate_recurring_events (today : PyDate) (events : List Ev) : List Ev :=
  if events.isEmpty then events
  else ((orderedKeys events).map
    (fun k => processGroup today (events.filter (fun e => groupKeyOf e == k)))).flatten

-- ## `SchoolsTool._format_date` and `_format_date_with_timezone`

def formatMappings : List String :=
  ["%Y-%m-%d", "%m/%d/%Y", "%d/%m/%Y", "%B %d, %Y", "%b %d, %Y", "%Y%m%d"]

def tryFormatMappings (s : String) : List String → Option PyDateTime
  | [] => none
  | fmt :: rest =>
    match pyStrptime s fmt with
    | some dt => some dt
    | none => tryFormatMappings s rest

/-- Model of `re.match(r'(\d{4}-\d{2}-\d{2})', ...)`: the ISO date prefix. -/
def isoDatePrefix (cs : List Char) : Option String :=
  match cs with
  | y1 :: y2 :: y3 :: y4 :: '-' :: m1 :: m2 :: '-' :: d1 :: d2 :: _ =>
    if y1.isDigit && y2.isDigit && y3.isDigit && y4.isDigit &&
       m1.isDigit && m2.isDigit && d1.isDigit && d2.isDigit
    then some (String.mk [y1, y2, y3, y4, '-', m1, m2, '-', d1, d2])
    else none
  | _ => none

/-- Model of `SchoolsTool._format_date`; `dateutil` is absent, so ISO-looking input
goes through the `except ImportError` regex branch. -/
def _format_date (date_str : String) : String :=
  if date_str = "" then "Date not specified"
  else
    let isoAttempt : Option String :=
      if date_str.data.contains 'T' || date_str.data.contains '+' ||
         date_str.data.contains 'Z' then
        match isoDatePrefix date_str.data with
        | some ds => (pyStrptime ds "%Y-%m-%d").map (strftime "%a, %b %d, %Y")
        | none => none
      else none
    match isoAttempt with
    | some r => r
    | none =>
      match tryFormatMappings date_str formatMappings with
      | some dt => strftime "%a, %b %d, %Y" dt
      | none =>
        let cleaned := pyStrip date_str
        if cleaned ≠ "" && cleaned ≠ "Date not specified" then cleaned
        else "Date not specified"

/-- Model of `date_str.replace('Z', '+00:00')`. -/
def replaceZ (s : String) : String :=
  String.mk (s.data.foldr
    (fun c acc => if c == 'Z' then '+' :: '0' :: '0' :: ':' :: '0' :: '0' :: acc else c :: acc)
    [])

/-- Model of `SchoolsTool._format_date_with_timezone`.  The `target_timezone`
argument is accepted but unused by the source, which hardcodes
`US/Eastern`; an event at midnight UTC (hour and minute zero) is formatted
as its calendar date without conversion. -/
def _format_date_with_timezone (date_str : String) (_target_timezone : String) : String :=
  if date_str = "" then "Date not specified"
  else if date_str.data.contains 'T' && date_str.data.contains 'Z' then
    match pyFromIso (replaceZ date_str) with
    | none => _format_date date_str
    | some dt =>
      if dt.hour = 0 && dt.minute = 0 then strftime "%a, %b %d, %Y" dt
      else strftime "%a, %b %d, %Y at %I:%M %p" (toEastern dt)
  else _format_date date_str

-- ## churches.py

/-- Scan for `digit '/' digit` (`\d{1,2}/\d{1,2}` has a match iff some `/`
has a digit on each side). -/
def hasDigitSlashDigit : List Char → Bool
  | a :: '/' :: b :: rest => (a.isDigit && b.isDigit) || hasDigitSlashDigit ('/' :: b :: rest)
  | _ :: rest => hasDigitSlashDigit rest
  | [] => false

/-- Scan for `\d{4}/\d{4}` (four digits, slash, four digits, anywhere). -/
def hasYearSlashYear : List Char → Bool
  | a :: b :: c :: d :: '/' :: e :: f :: g :: h :: rest =>
    (a.isDigit && b.isDigit && c.isDigit && d.isDigit &&
     e.isDigit && f.isDigit && g.isDigit && h.isDigit) ||
    hasYearSlashYear (b :: c :: d :: '/' :: e :: f :: g :: h :: rest)
  | _ :: rest => hasYearSlashYear rest
  | [] => false

/-- Scan for `@\d{1,2}` (`@` followed by a digit). -/
def hasAtDigit : List Char → Bool
  | '@' :: d :: rest => d.isDigit || hasAtDigit (d :: rest)
  | _ :: rest => hasAtDigit rest
  | [] => false

def timeSuffixes : List String := ["a.m.", "p.m.", "am", "pm"]

/-- Drop `pfx` from the front of `cs`, case-sensitively. -/
def dropPrefixExact : List Char → List Char → Option (List Char)
  | [], rest => some rest
  | _ :: _, [] => none
  | p :: ps, c :: cs => if p == c then dropPrefixExact ps cs else none

def hasTimeSuffixAt (cs : List Char) : Bool :=
  timeSuffixes.any (fun sfx => (dropPrefixExact sfx.data cs).isSome)

/-- Scan for `\d{1,2}\s*(a\.m\.|p\.m\.|am|pm)`: a digit, optional
whitespace, then a meridiem marker (which starts with a non-whitespace
letter, so the `\s*` consumption is forced). -/
def hasDigitTime : List Char → Bool
  | c :: rest =>
    (c.isDigit && hasTimeSuffixAt (rest.dropWhile Char.isWhitespace)) || hasDigitTime rest
  | [] => false

/-- Python's substring test `needle in hay` (an empty needle matches). -/
def isInfixChars (needle : List Char) : List Char → Bool
  | [] => (dropPrefixExact needle []).isSome
  | c :: rest => (dropPrefixExact needle (c :: rest)).isSome || isInfixChars needle rest

def containsSub (needle : String) (hay : List Char) : Bool :=
  isInfixChars needle.data hay

/-- Model of `ChurchesTool._looks_like_date`: count the date-pattern indicators that
match the lowercased text.  The weekday-name, month-name and `Deadline:`
alternations are written capitalised and searched case-sensitively against
the lowercased text, so they can never fire; the slash-date, `@`-time and
meridiem patterns carry the test. -/
def _looks_like_date (text : String) : Bool :=
  let tl := (pyLower text).data
  let hits : List Bool :=
    [ ["Monday", "Tuesday", "Wednesday", "Thursday", "Friday", "Saturday",
       "Sunday"].any (fun w => containsSub w tl),
      hasDigitSlashDigit tl,
      hasYearSlashYear tl,
      monthFullNames.any (fun w => containsSub w tl),
      monthAbbrevNames.any (fun w => containsSub w tl),
      hasAtDigit tl,
      hasDigitTime tl,
      containsSub "Deadline:" tl ]
  2 ≤ (hits.filter id).length

/-- The inner scan of `_scrape_snellville_community_church` that looks past
the current event for one whose title matches the date-titled event's
description and whose URL agrees. -/
def findBetter (descLower eventUrl : String) : List Ev → Option Ev
  | [] => none
  | other :: rest =>
    let otherTitle := pyStrip (pyLower other.title)
    if (otherTitle == descLower || containsSub descLower otherTitle.data) &&
       other.url.getD "" == eventUrl
    then some other
    else findBetter descLower eventUrl rest

/-- The deduplication loop of `_scrape_snellville_community_church`
(churches.py): skip repeated URLs and similar titles; when a date-looking
title carries a description, prefer a later event titled by that
description on the same URL. -/
def snellvilleDedupGo (allEvents : List Ev) (seenUrls seenTitles : List String) :
    List Ev → List Ev
  | [] => []
  | event :: rest =>
    let eventUrl := event.url.getD ""
    let eventTitle := pyStrip (pyLower event.title)
    if eventUrl ≠ "" && seenUrls.contains eventUrl then
      snellvilleDedupGo allEvents seenUrls seenTitles rest
    else if seenTitles.any (fun st =>
        (containsSub eventTitle st.data || containsSub st eventTitle.data) &&
        5 < eventTitle.length) then
      snellvilleDedupGo allEvents seenUrls seenTitles rest
    else
      let better : Option Ev :=
        if _looks_like_date eventTitle && event.description.getD "" ≠ "" then
          findBetter (pyStrip (pyLower (event.description.getD ""))) eventUrl
            (allEvents.drop (allEvents.findIdx (fun x => x == event) + 1))
        else none
      match better with
      | some b =>
        let seenUrls' := if b.url.getD "" ≠ "" then b.url.getD "" :: seenUrls else seenUrls
        b :: snellvilleDedupGo allEvents seenUrls' (pyStrip (pyLower b.title) :: seenTitles) rest
      | none =>
        let seenUrls' := if eventUrl ≠ "" then eventUrl :: seenUrls else seenUrls
        event :: snellvilleDedupGo allEvents seenUrls' (eventTitle :: seenTitles) rest

def snellvilleDedup (events : List Ev) : List Ev :=
  snellvilleDedupGo events [] [] events

-- ## `ChurchesTool._parse_date_auto`

def churchesDateFormats : List String :=
  ["%Y-%m-%d", "%m/%d/%Y", "%m-%d-%Y", "%d/%m/%Y",
   "%B %d, %Y", "%b %d, %Y", "%A, %B %d, %Y", "%A, %b %d, %Y",
   "%d %B %Y", "%d %b %Y",
   "%B %d", "%b %d", "%A, %B %d", "%A, %b %d",
   "%d %B", "%d %b",
   "%m/%d", "%m-%d", "%d/%m", "%d-%m",
   "%B %Y", "%b %Y"]

/-- Model of `re.sub(r'deadline:\s*', '', ..., flags=IGNORECASE)`: remove every
occurrence of `deadline:` and the whitespace run after it.  Every step
consumes at least one character, so the input length is enough fuel. -/
def removeDeadlineFuel : Nat → List Char → List Char
  | 0, cs => cs
  | _ + 1, [] => []
  | fuel + 1, c :: rest =>
    match dropPrefixCI "deadline:".data (c :: rest) with
    | some after => removeDeadlineFuel fuel (after.dropWhile Char.isWhitespace)
    | none => c :: removeDeadlineFuel fuel rest

def removeDeadline (cs : List Char) : List Char := removeDeadlineFuel cs.length cs

/-- Match `(\d+)[-]\d+\s+(\w+\s+\d{4})` at the head of `cs` (each greedy
run is bounded by a class the next piece cannot match, so no backtracking
arises); returns the two groups. -/
def digitRangeAt (cs : List Char) : Option (List Char × List Char) :=
  let d1 := cs.takeWhile Char.isDigit
  if d1.isEmpty then none else
  match cs.drop d1.length with
  | '-' :: r2 =>
    let d2 := r2.takeWhile Char.isDigit
    if d2.isEmpty then none else
    let r3 := r2.drop d2.length
    let ws1 := r3.takeWhile Char.isWhitespace
    if ws1.isEmpty then none else
    let r4 := r3.drop ws1.length
    let w := r4.takeWhile isWordChar
    if w.isEmpty then none else
    let r5 := r4.drop w.length
    let ws2 := r5.takeWhile Char.isWhitespace
    if ws2.isEmpty then none else
    let r6 := r5.drop ws2.length
    if (r6.take 4).length == 4 && (r6.take 4).all Char.isDigit
    then some (d1, w ++ ws2 ++ r6.take 4)
    else none
  | _ => none

def searchDigitRange : List Char → Option (List Char × List Char)
  | [] => none
  | c :: rest =>
    match digitRangeAt (c :: rest) with
    | some m => some m
    | none => searchDigitRange rest

/-- Model of `re.match(r'^(\w+)\s+(\d{4})$', ...)`. -/
def monthYearMatch (cs : List Char) : Option (List Char × List Char) :=
  let w := cs.takeWhile isWordChar
  if w.isEmpty then none else
  let r1 := cs.drop w.length
  let ws := r1.takeWhile Char.isWhitespace
  if ws.isEmpty then none else
  let r2 := r1.drop ws.length
  if r2.length == 4 && r2.all Char.isDigit then some (w, r2) else none

def tryChurchFormats (nowYear : Nat) (s : String) : List String → Option PyDateTime
  | [] => none
  | fmt :: rest =>
    match pyStrptime s fmt with
    | some dt =>
      -- `tz.localize` attaches a timezone without moving the wall clock
      some (if dt.year == 1900 then { dt with year := nowYear } else dt)
    | none => tryChurchFormats nowYear s rest

/-- Model of `ChurchesTool._parse_date_auto` (churches.py as in the tree): the range
branch is always entered because `'' in date_text` is `True`; when the
`\d+[-]\d+\s+\w+\s+\d{4}` search fails, `re.split(r'[]|\s+-\s+', ...)` is
reached, whose pattern has an unterminated character set, so `re.split`
raises `re.error` and the enclosing `except Exception` returns `None`. -/
def _parse_date_auto (nowYear : Nat) (date_text : String) : Option PyDateTime :=
  let t1 :=
    if date_text.data.contains '@'
    then pyStrip (String.mk (date_text.data.takeWhile (· ≠ '@')))
    else date_text
  let t2 :=
    if containsSub "deadline:" (pyLower t1).data
    then pyStrip (String.mk (removeDeadline t1.data))
    else t1
  match searchDigitRange t2.data with
  | none => none
  | some (g1, g2) =>
    let t3 := String.mk (g1 ++ [' '] ++ g2)
    let t4 := pyStrip (String.mk (t3.data.filter
      (fun c => isWordChar c || c.isWhitespace || c == '/' || c == ',' || c == '-')))
    let t5 :=
      match monthYearMatch t4.data with
      | some (w, y) => String.mk (w ++ " 1, ".data ++ y)
      | none => t4
    tryChurchFormats nowYear t5 churchesDateFormats

-- ## `ChurchesTool._filter_events_by_date`

/-- Model of `ChurchesTool._filter_events_by_date`: default window is today (
`INCLUDE_TODAY = True`) through today + `DEFAULT_DAYS_AHEAD` (14); events
with a missing, empty or unparseable `date` are skipped; a failure to
parse the bounds returns the list unfiltered (the `except` path). -/
def _filter_events_by_date (today : PyDate) (start_date end_date : Option String)
    (events : List Ev) : List Ev :=
  let startStr := start_date.getD (isoDate today)
  let endStr := end_date.getD (isoDate (addDays today 14))
  match pyFromIso startStr, pyFromIso endStr with
  | some sdt, some edt =>
    events.filter (fun e =>
      match e.date with
      | none => false
      | some ds =>
        if ds = "" then false
        else
          match pyFromIso ds with
          | some dt => dateLe (dtDate sdt) (dtDate dt) && dateLe (dtDate dt) (dtDate edt)
          | none => false)
  | _, _ => events

-- ## Selector cascade engines
--
-- The page is abstracted: a pattern/selector carries the element list that
-- `soup.select(...)` returns for it and the per-element extraction
-- function (`_extract_event_data_auto` / `_parse_event_element`), which
-- yields `none` when extraction fails or finds no title.

/-- One entry of `ChurchesTool.common_selectors`, applied to a fixed page. -/
structure AutoPattern (α : Type) where
  elements : List α
  extract : α → Option Ev

/-- The bounded sample: the first 5 container matches, kept when the event
dict is truthy and its `title` is non-empty. -/
def autoPatternSample {α : Type} (p : AutoPattern α) : List Ev :=
  ((p.elements.take 5).filterMap p.extract).filter (fun e => e.title ≠ "")

/-- Applying a committed pattern to every container on the page. -/
def applyPatternAll {α : Type} (p : AutoPattern α) : List Ev :=
  (p.elements.filterMap p.extract).filter (fun e => e.title ≠ "")

/-- Model of `ChurchesTool._scrape_church_calendar_auto`: try patterns in order; the
first whose sample yields an event with a title is applied to all elements
and the function returns, skipping every remaining pattern. -/
def _scrape_church_calendar_auto {α : Type} : List (AutoPattern α) → List Ev
  | [] => []
  | p :: rest =>
    if p.elements.isEmpty then _scrape_church_calendar_auto rest
    else if (autoPatternSample p).isEmpty then _scrape_church_calendar_auto rest
    else applyPatternAll p

/-- One selector of `SchoolsTool._extract_calendar_events`'s strategy 1. -/
structure CalSelector (α : Type) where
  elements : List α
  parse : α → Option Ev

def selectorEvents {α : Type} (s : CalSelector α) : List Ev :=
  s.elements.filterMap s.parse

/-- Model of `f"{event['title']}_{event['when']}"`; an f-string renders a `None`
value as `"None"`. -/
def pyStrOpt (o : Option String) : String :=
  match o with
  | none => "None"
  | some s => s

def titleWhenKey (e : Ev) : String := e.title ++ "_" ++ pyStrOpt e.whenText

def dedupTitleWhenGo (seen : List String) : List Ev → List Ev
  | [] => []
  | e :: rest =>
    if seen.contains (titleWhenKey e) then dedupTitleWhenGo seen rest
    else e :: dedupTitleWhenGo (titleWhenKey e :: seen) rest

/-- Model of `SchoolsTool._extract_calendar_events`: strategy 1 runs *every*
selector and accumulates all their events ("Continue trying other
selectors to get all events"), dedupes on `title_when`, and only if that
is empty falls back to strategies 2–4 (Google-calendar iframes,
structured data, text patterns — abstracted as the event lists they
yield). -/
def _extract_calendar_events {α : Type} (sels : List (CalSelector α))
    (strategy2 strategy3 strategy4 : List Ev) : List Ev :=
  let events := dedupTitleWhenGo [] ((sels.map selectorEvents).flatten)
  let events := if events.isEmpty then events ++ strategy2 else events
  let events := if events.isEmpty then events ++ strategy3 else events
  if events.isEmpty then events ++ strategy4 else events

-- ## Contact-enrichment fetch plan

/-- Modelled from the spec: `scrape_contacts_from_urls_async` is invoked by
`family_event_search.py` and `scraping_node.py` but its definition is
absent from the tree; the spec has it dedupe "by exact URL first, then by
registrable domain — at most one fetch per domain per call".  The
registrable domain is the URL's host: the text after `://` up to the next
`/`, lowercased. -/
def hostStart : List Char → Option (List Char)
  | ':' :: '/' :: '/' :: rest => some rest
  | _ :: rest => hostStart rest
  | [] => none

def registrableDomain (url : String) : String :=
  pyLower (String.mk (((hostStart url.data).getD url.data).takeWhile (· ≠ '/')))

/-- Modelled from the spec: the URLs actually fetched in one call, given
the per-call visited-URL and visited-domain sets (both empty at the start
of each top-level call). -/
def contactFetchPlanGo (visitedUrls visitedDomains : List String) :
    List String → List String
  | [] => []
  | u :: rest =>
    if visitedUrls.contains u || visitedDomains.contains (registrableDomain u) then
      contactFetchPlanGo visitedUrls visitedDomains rest
    else
      u :: contactFetchPlanGo (u :: visitedUrls) (registrableDomain u :: visitedDomains) rest

def contactFetchPlan (urls : List String) : List String :=
  contactFetchPlanGo [] [] urls

-- ## Concrete fixtures used by the claim theorems

def lunchEv (w : String) : Ev :=
  { title := "Lunch Visitors Welcome", whenText := some w, address := some "100 School Rd",
    description := some "Visit!", location := some "Cafeteria", url := some "https://s/e",
    website := some "https://s", source := some "Brookwood" }

def clubEv (w : String) : Ev := { title := "Chess Club", whenText := some w }

def unparsedEv : Ev := { title := "Mystery Night", whenText := some "???" }

def noDateEv : Ev := { title := "Mystery Night", date := none }

def dateTitledEv : Ev :=
  { title := "Wednesday, September 10 @6 p.m.", url := some "https://x/events/openhouse" }

def dateTitledEvDesc : Ev :=
  { title := "Wednesday, September 10 @6 p.m.", url := some "https://x/events/openhouse",
    description := some "Fall Open House" }

def openHouseEv : Ev := { title := "Fall Open House", url := some "https://x/events/openhouse" }

/-- The claim's "days covered" measure: for each emitted run, the days
spanned inclusively from its first to its last date (1 for a single). -/
def runDaysCovered : List (PyDate × Ev) → Nat
  | [] => 0
  | (d0, e0) :: rest => rataDie (rest.getLastD (d0, e0)).1 - rataDie d0 + 1

/-- The day-span sum of the consolidation output for one group's dated
events (runs correspond one-to-one to emitted ranges/singles). -/
def outputDaysCovered (today : PyDate) (g : List Ev) : Nat :=
  ((splitRuns (sortDated (datedEvents today g))).map runDaysCovered).sum

def c6SampleEvent : Ev := { title := "Worship Night", whenText := some "Sep 9, 2025" }

def c6DeadPattern : AutoPattern Nat := { elements := [], extract := fun _ => none }

def c6LivePattern : AutoPattern Nat :=
  { elements := [0, 1], extract := fun _ => some c6SampleEvent }

def c6LaterPattern : AutoPattern Nat :=
  { elements := [2], extract := fun _ => some { title := "Bake Sale" } }

def c6Sel1 : CalSelector Nat :=
  { elements := [0], parse := fun _ => some { title := "Art Show", whenText := some "Sep 9" } }

def c6Sel2 : CalSelector Nat :=
  { elements := [1], parse := fun _ => some { title := "Book Fair", whenText := some "Sep 10" } }

/-- The event emitted for the concrete Sep 2–3 run of
"Lunch Visitors Welcome" events. -/
def c10Merged : Ev :=
  (emitRun [(⟨2025, 9, 2⟩, lunchEv "Sep 2, 2025"),
            (⟨2025, 9, 3⟩, lunchEv "Sep 3, 2025")]).headD default

-- ## Helper lemmas

theorem dedupGo_idem (l : List Ev) : ∀ seen, dedupGo seen (dedupGo seen l) = dedupGo seen l := by
  induction l with
  | nil => intro seen; rfl
  | cons e rest ih =>
    intro seen
    by_cases h : seen.contains (dedupKey e)
    · simp only [dedupGo, if_pos h]
      exact ih seen
    · simp only [dedupGo, if_neg h]
      exact congrArg (e :: ·) (ih (dedupKey e :: seen))

theorem splitRunsGo_flatten (l : List (PyDate × Ev)) :
    ∀ cur last, (splitRunsGo cur last l).flatten = cur ++ l := by
  induction l with
  | nil => intro cur last; simp [splitRunsGo]
  | cons p rest ih =>
    intro cur last
    by_cases h : (rataDie p.1 : Int) - (rataDie last : Int) ≤ 2
    · simp only [splitRunsGo, if_pos h]
      rw [ih]
      simp
    · simp only [splitRunsGo, if_neg h]
      simp only [List.flatten_cons, ih]
      simp

theorem splitRuns_flatten (l : List (PyDate × Ev)) : (splitRuns l).flatten = l := by
  cases l with
  | nil => rfl
  | cons p rest => simpa using splitRunsGo_flatten rest [p] p.1

theorem insertDated_length (p : PyDate × Ev) (l : List (PyDate × Ev)) :
    (insertDated p l).length = l.length + 1 := by
  induction l with
  | nil => rfl
  | cons q rest ih =>
    by_cases h : dateLt q.1 p.1
    · simp [insertDated, if_pos h, ih]
    · simp [insertDated, if_neg h]

theorem sortDated_length (l : List (PyDate × Ev)) : (sortDated l).length = l.length := by
  induction l with
  | nil => rfl
  | cons p rest ih => simp [sortDated, List.foldr_cons, insertDated_length]; simpa [sortDated] using ih

theorem foldl_keys_mono (l : List Ev) :
    ∀ (acc : List String) (k : String), k ∈ acc →
      k ∈ l.foldl (fun acc e => if acc.contains (groupKeyOf e) then acc
                                else acc ++ [groupKeyOf e]) acc := by
  induction l with
  | nil => intro acc k hk; exact hk
  | cons e rest ih =>
    intro acc k hk
    simp only [List.foldl_cons]
    by_cases h : acc.contains (groupKeyOf e)
    · rw [if_pos h]; exact ih acc k hk
    · rw [if_neg h]; exact ih _ k (List.mem_append_left _ hk)

theorem groupKey_mem_orderedKeys (l : List Ev) :
    ∀ (acc : List String) (e : Ev), e ∈ l →
      groupKeyOf e ∈ l.foldl (fun acc e => if acc.contains (groupKeyOf e) then acc
                                           else acc ++ [groupKeyOf e]) acc := by
  induction l with
  | nil => intro _ e he; cases he
  | cons e0 rest ih =>
    intro acc e he
    simp only [List.foldl_cons]
    rcases List.mem_cons.mp he with rfl | hrest
    · by_cases h : acc.contains (groupKeyOf e)
      · rw [if_pos h]
        exact foldl_keys_mono rest acc _ (by simpa using h)
      · rw [if_neg h]
        exact foldl_keys_mono rest _ _ (List.mem_append_right _ (by simp))
    · by_cases h : acc.contains (groupKeyOf e0)
      · rw [if_pos h]; exact ih acc e hrest
      · rw [if_neg h]; exact ih _ e hrest

theorem mem_processGroup_of_unparsed (today : PyDate) (g : List Ev) (e : Ev)
    (hg : e ∈ g) (hp : _parse_event_date today (e.whenText.getD "") = none) :
    e ∈ processGroup today g := by
  unfold processGroup
  by_cases h1 : g.length = 1
  · rw [if_pos h1]; exact hg
  · rw [if_neg h1]
    have hu : e ∈ g.filter (fun e => (_parse_event_date today (e.whenText.getD "")).isNone) :=
      List.mem_filter.mpr ⟨hg, by simp [hp]⟩
    by_cases h2 : (datedEvents today g).isEmpty
    · simp only [h2, if_true]
      exact List.mem_append_left _ hu
    · simp only [h2, if_false]
      exact List.mem_append_left _ hu

theorem contactGo_fresh (urls : List String) :
    ∀ (vU vD : List String), ∀ u ∈ contactFetchPlanGo vU vD urls,
      registrableDomain u ∉ vD := by
  induction urls with
  | nil => intro vU vD u hu; cases hu
  | cons w rest ih =>
    intro vU vD u hu
    by_cases h : vU.contains w || vD.contains (registrableDomain w)
    · rw [contactFetchPlanGo, if_pos h] at hu
      exact ih vU vD u hu
    · rw [contactFetchPlanGo, if_neg h] at hu
      rcases List.mem_cons.mp hu with rfl | htail
      · exact (by simpa using h : ¬ u ∈ vU ∧ ¬ registrableDomain u ∈ vD).2
      · have := ih (w :: vU) (registrableDomain w :: vD) u htail
        intro hmem
        exact this (List.mem_cons_of_mem _ hmem)

theorem contactGo_nodup (urls : List String) :
    ∀ (vU vD : List String),
      ((contactFetchPlanGo vU vD urls).map registrableDomain).Nodup := by
  induction urls with
  | nil => intro vU vD; simp [contactFetchPlanGo]
  | cons w rest ih =>
    intro vU vD
    by_cases h : vU.contains w || vD.contains (registrableDomain w)
    · rw [contactFetchPlanGo, if_pos h]; exact ih vU vD
    · rw [contactFetchPlanGo, if_neg h]
      simp only [List.map_cons, List.nodup_cons]
      refine ⟨?_, ih _ _⟩
      intro hmem
      rcases List.mem_map.mp hmem with ⟨u, hu, hd⟩
      have := contactGo_fresh rest (w :: vU) (registrableDomain w :: vD) u hu
      exact this (by rw [hd]; exact List.mem_cons_self _ _)

theorem scrapeAuto_skip {α : Type} (ps1 : List (AutoPattern α)) :
    ∀ (rest : List (AutoPattern α)),
      (∀ q ∈ ps1, q.elements.isEmpty = true ∨ (autoPatternSample q).isEmpty = true) →
      _scrape_church_calendar_auto (ps1 ++ rest) = _scrape_church_calendar_auto rest := by
  induction ps1 with
  | nil => intro rest _; rfl
  | cons q qs ih =>
    intro rest h
    have hq := h q (List.mem_cons_self _ _)
    have htail : ∀ x ∈ qs, x.elements.isEmpty = true ∨ (autoPatternSample x).isEmpty = true :=
      fun x hx => h x (List.mem_cons_of_mem _ hx)
    show _scrape_church_calendar_auto (q :: (qs ++ rest)) = _
    rcases hq with hq | hq
    · rw [_scrape_church_calendar_auto, if_pos hq]
      exact ih rest htail
    · by_cases he : q.elements.isEmpty
      · rw [_scrape_church_calendar_auto, if_pos he]
        exact ih rest htail
      · rw [_scrape_church_calendar_auto, if_neg he, if_pos hq]
        exact ih rest htail

-- ## Claim theorems

/-- C1: the temporal parsers are total: for every input string,
`_parse_date_auto` (churches) and `_parse_event_date` (schools) terminate
and return either a parsed value (`some`) or the unparsed sentinel `None`
(`none`); every raising sub-step is caught by the enclosing handlers, which
the embedding reflects by total functions into `Option`. -/
theorem C1_temporal_parsers_total (nowYear : Nat) (today : PyDate) (s : String) :
    ((∃ dt, _parse_date_auto nowYear s = some dt) ∨ _parse_date_auto nowYear s = none) ∧
    ((∃ d, _parse_event_date today s = some d) ∨ _parse_event_date today s = none) := by
  constructor
  · cases h : _parse_date_auto nowYear s with
    | some dt => exact Or.inl ⟨dt, rfl⟩
    | none => exact Or.inr rfl
  · cases h : _parse_event_date today s with
    | some d => exact Or.inl ⟨d, rfl⟩
    | none => exact Or.inr rfl

/-- C2 (amended): in the schools pipeline an Event whose date text cannot
be parsed is retained both by the date-range filter and by recurrence
consolidation (it is never silently dropped there); the churches
date-range filter is the exception recorded in the counterexample. -/
theorem C2_schools_retains_unparsed (today : PyDate) (events : List Ev) (e : Ev)
    (he : e ∈ events) :
    (_parse_event_date today (dateOrWhen e) = none →
      e ∈ _filter_events_by_date_range today events) ∧
    (_parse_event_date today (e.whenText.getD "") = none →
      e ∈ _consolidate_recurring_events today events) := by
  constructor
  · intro hp
    unfold _filter_events_by_date_range
    exact List.mem_filter.mpr ⟨he, by simp [hp]⟩
  · intro hp
    unfold _consolidate_recurring_events
    rw [if_neg (by simpa using List.ne_nil_of_mem he)]
    apply List.mem_flatten.mpr
    refine ⟨processGroup today (events.filter (fun x => groupKeyOf x == groupKeyOf e)), ?_, ?_⟩
    · apply List.mem_map.mpr
      exact ⟨groupKeyOf e, groupKey_mem_orderedKeys events [] e he, rfl⟩
    · apply mem_processGroup_of_unparsed today _ e _ hp
      exact List.mem_filter.mpr ⟨he, by simp⟩

/-- C2 witness: a schools event with the unparseable date text `"???"` is
retained by both stages. -/
theorem C2_schools_retains_unparsed_witness :
    unparsedEv ∈ _filter_events_by_date_range ⟨2025, 9, 1⟩ [unparsedEv] ∧
    unparsedEv ∈ _consolidate_recurring_events ⟨2025, 9, 1⟩ [unparsedEv] :=
  ⟨(C2_schools_retains_unparsed ⟨2025, 9, 1⟩ [unparsedEv] unparsedEv (by simp)).1 (by decide),
   (C2_schools_retains_unparsed ⟨2025, 9, 1⟩ [unparsedEv] unparsedEv (by simp)).2 (by decide)⟩

/-- C2 counterexample: the churches date-range filter silently drops an
Event whose `date` is missing (i.e. whose date text never parsed), so the
claim "retained in the output of each pipeline stage" is false as stated. -/
theorem C2_churches_filter_drops_unparsed :
    noDateEv ∈ [noDateEv] ∧
    _filter_events_by_date ⟨2025, 9, 1⟩ none none [noDateEv] = [] := by
  constructor
  · simp
  · decide

/-- C3: evaluating `_consolidate_recurring_events` on four
"Lunch Visitors Welcome" events at one venue dated Sep 2–5, 2025 yields
exactly one event, but its range label is the zero-padded
`"Sep 02-05, 2025"` — `strftime('%b %d')` pads the day — not the
`"Sep 2-5, 2025"` promised by the claim and by the function's own
docstring. -/
theorem C3_lunch_consolidation_label :
    _consolidate_recurring_events ⟨2025, 9, 1⟩
        [lunchEv "Sep 2, 2025", lunchEv "Sep 3, 2025",
         lunchEv "Sep 4, 2025", lunchEv "Sep 5, 2025"] =
      [{ lunchEv "Sep 2, 2025" with
          whenText := some "Sep 02-05, 2025",
          description := some "Visit! (Recurring event: 4 dates)" }] ∧
    (some "Sep 02-05, 2025" : Option String) ≠ some "Sep 2-5, 2025" := by
  constructor
  · decide
  · decide

/-- C4 (amended): consolidation conserves the occurrence count measured in
events: the runs into which the (sorted) dated events of a group are split
partition them, so the run lengths — each recorded in the emitted event's
`(Recurring event: N dates)` suffix — sum to the number of dated input
events.  The day-span measure of the original claim is not conserved (see
the counterexample). -/
theorem C4_occurrence_count_conserved (dated : List (PyDate × Ev)) :
    ((splitRuns (sortDated dated)).map List.length).sum = dated.length := by
  have h1 : ((splitRuns (sortDated dated)).map List.length).sum =
      (splitRuns (sortDated dated)).flatten.length := (List.length_flatten _).symm
  rw [h1, splitRuns_flatten, sortDated_length]

/-- C4 counterexample: two "Chess Club" events on Sep 2 and Sep 4 (a 2-day
gap, which the code merges) produce one range covering 3 days, although
the group has only 2 dated input events — the day-span sum is not
conserved. -/
theorem C4_days_covered_not_conserved :
    outputDaysCovered ⟨2025, 9, 1⟩ [clubEv "Sep 2, 2025", clubEv "Sep 4, 2025"] = 3 ∧
    (datedEvents ⟨2025, 9, 1⟩ [clubEv "Sep 2, 2025", clubEv "Sep 4, 2025"]).length = 2 ∧
    (3 : Nat) ≠ 2 := by
  refine ⟨by decide, by decide, by decide⟩

/-- C5 (amended): with the two Events sharing a `linkURL`, the
"Fall Open House" Event is kept in either input order provided the
date-titled Event carries a description matching the non-date title (the
heuristic's trigger); without such a description, whichever Event comes
first is kept (see the counterexample). -/
theorem C5_nondate_title_kept_with_description :
    snellvilleDedup [dateTitledEvDesc, openHouseEv] = [openHouseEv] ∧
    snellvilleDedup [openHouseEv, dateTitledEvDesc] = [openHouseEv] := by
  constructor
  · decide
  · decide

/-- C5 counterexample: when the date-titled Event comes first and has no
description, it is kept and the "Fall Open House" Event on the same URL is
dropped — the claimed order-independence fails. -/
theorem C5_date_title_kept_when_first :
    _looks_like_date (pyStrip (pyLower dateTitledEv.title)) = true ∧
    _looks_like_date (pyStrip (pyLower openHouseEv.title)) = false ∧
    snellvilleDedup [dateTitledEv, openHouseEv] = [dateTitledEv] := by
  refine ⟨by decide, by decide, by decide⟩

/-- C6 (amended): the churches auto-detection engine does commit to the
first pattern whose first-5 sample yields a titled event — it applies that
pattern to all containers and skips every remaining pattern, so later
patterns cannot change the result.  (The schools engine does not: see the
counterexample.) -/
theorem C6_churches_engine_commits_first_working {α : Type}
    (ps1 : List (AutoPattern α)) (p : AutoPattern α) (ps2 ps2' : List (AutoPattern α))
    (h1 : ∀ q ∈ ps1, q.elements.isEmpty = true ∨ (autoPatternSample q).isEmpty = true)
    (h2 : p.elements.isEmpty = false) (h3 : (autoPatternSample p).isEmpty = false) :
    _scrape_church_calendar_auto (ps1 ++ p :: ps2) = applyPatternAll p ∧
    _scrape_church_calendar_auto (ps1 ++ p :: ps2) =
      _scrape_church_calendar_auto (ps1 ++ p :: ps2') := by
  have key : ∀ tail : List (AutoPattern α),
      _scrape_church_calendar_auto (ps1 ++ p :: tail) = applyPatternAll p := by
    intro tail
    rw [scrapeAuto_skip ps1 (p :: tail) h1]
    rw [_scrape_church_calendar_auto, if_neg (by simp [h2]), if_neg (by simp [h3])]
  exact ⟨key ps2, by rw [key ps2, key ps2']⟩

/-- C6 witness: with a first pattern matching nothing, a second working
pattern and a third that would also work, the churches engine returns the
second pattern applied to all its containers, and deleting the third
pattern does not change the result. -/
theorem C6_churches_engine_commits_first_working_witness :
    _scrape_church_calendar_auto [c6DeadPattern, c6LivePattern, c6LaterPattern] =
      applyPatternAll c6LivePattern ∧
    _scrape_church_calendar_auto [c6DeadPattern, c6LivePattern, c6LaterPattern] =
      _scrape_church_calendar_auto [c6DeadPattern, c6LivePattern] :=
  C6_churches_engine_commits_first_working [c6DeadPattern] c6LivePattern [c6LaterPattern] []
    (by intro q hq; rw [List.mem_singleton.mp hq]; exact Or.inl rfl) rfl rfl

/-- C6 counterexample: in the schools engine the first selector already
yields an event, yet the second selector's event is also in the output
(the loop "continues trying other selectors"), so the claim that the
engine "skips every remaining pattern" once one works is false for it. -/
theorem C6_schools_engine_accumulates :
    _extract_calendar_events [c6Sel1, c6Sel2] [] [] [] =
      [{ title := "Art Show", whenText := some "Sep 9" },
       { title := "Book Fair", whenText := some "Sep 10" }] ∧
    _extract_calendar_events [c6Sel1] [] [] [] =
      [{ title := "Art Show", whenText := some "Sep 9" }] := by
  constructor
  · decide
  · decide

/-- C7 (spec-modelled): for every call, the fetched URLs have pairwise
distinct registrable domains — at most one fetch per domain per call — and
in particular the two same-domain URLs of the claim trigger exactly one
fetch to `a.example`. -/
theorem C7_at_most_one_fetch_per_domain :
    (∀ urls : List String, ((contactFetchPlan urls).map registrableDomain).Nodup) ∧
    contactFetchPlan ["https://a.example/x", "https://a.example/y"] = ["https://a.example/x"] := by
  constructor
  · intro urls
    exact contactGo_nodup urls [] []
  · decide

/-- C8 (amended): for an ISO timestamp carrying `T` and `Z`, when the
parsed hour and minute are both zero the formatter returns that calendar
date unchanged (no timezone conversion); otherwise it formats the instant
converted to US/Eastern.  "Midnight" is tested on hour and minute only —
seconds are ignored, which the counterexample exploits. -/
theorem C8_midnight_allday_else_eastern (s : String) (dt : PyDateTime)
    (hT : s.data.contains 'T' = true) (hZ : s.data.contains 'Z' = true)
    (hne : s ≠ "") (hp : pyFromIso (replaceZ s) = some dt) :
    (dt.hour = 0 ∧ dt.minute = 0 →
      _format_date_with_timezone s "US/Eastern" = strftime "%a, %b %d, %Y" dt) ∧
    (¬(dt.hour = 0 ∧ dt.minute = 0) →
      _format_date_with_timezone s "US/Eastern" =
        strftime "%a, %b %d, %Y at %I:%M %p" (toEastern dt)) := by
  have hcond : (s.data.contains 'T' && s.data.contains 'Z') = true := by
    rw [hT, hZ]; rfl
  constructor
  · intro hmid
    unfold _format_date_with_timezone
    rw [if_neg hne, if_pos hcond, hp]
    simp [hmid.1, hmid.2]
  · intro hmid
    unfold _format_date_with_timezone
    rw [if_neg hne, if_pos hcond, hp]
    by_cases h0 : dt.hour = 0
    · by_cases h1 : dt.minute = 0
      · exact absurd ⟨h0, h1⟩ hmid
      · simp [h0, h1]
    · simp [h0]

/-- C8 witness: `"2025-09-02T11:30:00Z"` carries a real time, so the
formatter produces the US/Eastern rendering of that instant. -/
theorem C8_midnight_allday_else_eastern_witness :
    _format_date_with_timezone "2025-09-02T11:30:00Z" "US/Eastern" =
      strftime "%a, %b %d, %Y at %I:%M %p" (toEastern ⟨2025, 9, 2, 11, 30, 0⟩) :=
  (C8_midnight_allday_else_eastern "2025-09-02T11:30:00Z" ⟨2025, 9, 2, 11, 30, 0⟩
    (by decide) (by decide) (by decide) (by decide)).2 (by decide)

/-- C8 counterexample: `"2025-01-01T00:00:45Z"` is not midnight (45
seconds past), so by the claim it should be converted to US/Eastern
(`Tue, Dec 31, 2024 at 07:00 PM`); the code tests only hour and minute
and returns the unconverted calendar date instead. -/
theorem C8_seconds_ignored_in_midnight_check :
    _format_date_with_timezone "2025-01-01T00:00:45Z" "US/Eastern" = "Wed, Jan 01, 2025" ∧
    strftime "%a, %b %d, %Y at %I:%M %p" (toEastern ⟨2025, 1, 1, 0, 0, 45⟩) =
      "Tue, Dec 31, 2024 at 07:00 PM" ∧
    ("Wed, Jan 01, 2025" : String) ≠ "Tue, Dec 31, 2024 at 07:00 PM" := by
  refine ⟨by decide, by decide, by decide⟩

/-- C9: `_deduplicate_events` is idempotent. -/
theorem C9_dedupe_idempotent (events : List Ev) :
    _deduplicate_events (_deduplicate_events events) = _deduplicate_events events :=
  dedupGo_idem events []

/-- C10: when a run of two or more dated events is merged, the emitted
event is the run's first (earliest-dated) event with only `when` (the
range label) and `description` (the recurrence-count suffix) rewritten;
title, date, location, address, url, website, source and time are
unchanged. -/
theorem C10_merge_frame (d0 : PyDate) (e0 : Ev) (p1 : PyDate × Ev)
    (rest : List (PyDate × Ev)) (e' : Ev)
    (h : e' ∈ emitRun ((d0, e0) :: p1 :: rest)) :
    e'.title = e0.title ∧ e'.date = e0.date ∧ e'.location = e0.location ∧
    e'.address = e0.address ∧ e'.url = e0.url ∧ e'.website = e0.website ∧
    e'.source = e0.source ∧ e'.time = e0.time ∧
    e'.whenText = some (rangeLabel d0 ((p1 :: rest).getLastD (d0, e0)).1) ∧
    e'.description = some (pyStrip ((e0.description.getD "") ++
      " (Recurring event: " ++ toString ((p1 :: rest).length + 1) ++ " dates)")) := by
  have he : e' = { e0 with
      whenText := some (rangeLabel d0 ((p1 :: rest).getLastD (d0, e0)).1),
      description := some (pyStrip ((e0.description.getD "") ++
        " (Recurring event: " ++ toString ((p1 :: rest).length + 1) ++ " dates)")) } := by
    simpa [emitRun] using h
  subst he
  refine ⟨rfl, rfl, rfl, rfl, rfl, rfl, rfl, rfl, rfl, rfl⟩

/-- C10 witness: merging the Sep 2–3 run of "Lunch Visitors Welcome"
events leaves every field except `when` and `description` equal to the
first event's. -/
theorem C10_merge_frame_witness :
    c10Merged.title = (lunchEv "Sep 2, 2025").title ∧
    c10Merged.date = (lunchEv "Sep 2, 2025").date ∧
    c10Merged.location = (lunchEv "Sep 2, 2025").location ∧
    c10Merged.address = (lunchEv "Sep 2, 2025").address ∧
    c10Merged.url = (lunchEv "Sep 2, 2025").url ∧
    c10Merged.website = (lunchEv "Sep 2, 2025").website ∧
    c10Merged.source = (lunchEv "Sep 2, 2025").source ∧
    c10Merged.time = (lunchEv "Sep 2, 2025").time ∧
    c10Merged.whenText = some (rangeLabel ⟨2025, 9, 2⟩
      (([(⟨2025, 9, 3⟩, lunchEv "Sep 3, 2025")]).getLastD
        (⟨2025, 9, 2⟩, lunchEv "Sep 2, 2025")).1) ∧
    c10Merged.description = some (pyStrip (((lunchEv "Sep 2, 2025").description.getD "") ++
      " (Recurring event: " ++
      toString (([(⟨2025, 9, 3⟩, lunchEv "Sep 3, 2025")] : List (PyDate × Ev)).length + 1) ++
      " dates)")) :=
  C10_merge_frame ⟨2025, 9, 2⟩ (lunchEv "Sep 2, 2025")
    (⟨2025, 9, 3⟩, lunchEv "Sep 3, 2025") [] c10Merged (by exact List.mem_cons_self _ _)
